import Mathlib

/-!
Verification of the token-lifecycle logic of `kite_telegram_bot.py`.

Shallow embedding of the single source file `src/kite_telegram_bot.py`.

Modelling conventions:

* A Python `dict` loaded from / dumped to the JSON token file is an
  association list `Rec := List (String × JVal)`; lookups follow Python
  semantics (`d.get(k)` is `Rec.getVal`).
* JSON / in-memory values are `JVal`.  A Python `datetime` object, and the
  ISO-8601 string that `datetime.isoformat()` produces for it and that
  `datetime.fromisoformat` parses back, are both modelled by the single
  constructor `JVal.jTime t` with `t : Int` an abstract timestamp: the
  codec `isoformat`/`fromisoformat` is a bijection between timestamps and
  well-formed ISO strings, so serialisation of a timestamp is the identity
  in the model, and a string that is *not* a well-formed timestamp is
  `JVal.jStr`.  `datetime.now()` is an explicit `now : Int` parameter.
  `timedelta(days=1)` is the constant `oneDay`.
* The token file `tokens.json` is `TokenFile`: `missing` (the file does not
  exist), `corrupt` (it exists but `json.load` raises), or `json r` (it
  parses to the dict `r`).  `json.load` raising is an `Except.error`.
* Calls to the external brokerage SDK (`kite.profile()` inside
  `is_access_token_valid`, `renew_access_token`, `generate_session`) are
  oracles supplied in a `KiteEnv`; an `Except.error` result is a Python
  exception raised by the call.
* The process-wide mutable `kite` handle is the `kite` field of `BotState`.
-/

/-- A JSON / in-memory Python value as used by the token store.
`jTime t` stands both for a `datetime` object with timestamp `t` and for
its ISO-formatted string (see the module docstring); `jStr s` is any other
string; `jNum n` an integer. -/
inductive JVal : Type where
  | jStr (s : String)
  | jTime (t : Int)
  | jNum (n : Int)
  deriving DecidableEq, Repr

/-- A Python dict serialised to / loaded from the token file:
an association list from keys to values. -/
abbrev Rec := List (String × JVal)

/-- Lookup `d.get(k)` / `d[k]`: the value bound to `k`, if any. -/
def Rec.getVal (r : Rec) (k : String) : Option JVal :=
  r.lookup k

/-- Assignment `d[k] = v`: bind `k` to `v`, removing any previous binding. -/
def Rec.setVal (r : Rec) (k : String) (v : JVal) : Rec :=
  (k, v) :: r.filter (fun p => p.1 != k)

/-- Python `{**saved, **newdata}`: keys of `newdata` win on collision,
all other keys keep `saved`'s value. -/
def mergeRecs (saved newdata : Rec) : Rec :=
  saved.filter (fun p => (newdata.lookup p.1).isNone) ++ newdata

/-- Python truthiness of the values a token record can hold:
`""` and `0` are falsy, everything else truthy. -/
def truthyVal : JVal → Bool
  | .jStr s => !s.isEmpty
  | .jTime _ => true
  | .jNum n => n != 0

/-- Truthiness of `d.get(k)` (a missing key yields `None`, which is falsy). -/
def truthy : Option JVal → Bool
  | none => false
  | some v => truthyVal v

/-- Python `timedelta(days=1)` as an abstract timestamp difference. -/
def oneDay : Int := 86400

/-- The on-disk state of `tokens.json`. -/
inductive TokenFile : Type where
  | missing
  | corrupt
  | json (r : Rec)
  deriving DecidableEq, Repr

/-- Model of `_to_serializable(d)`: copy the dict (datetime values become their ISO
strings, which the `jTime` codec renders as the identity) and stamp
`saved_at` with the current time. -/
def to_serializable (d : Rec) (now : Int) : Rec :=
  d.setVal "saved_at" (.jTime now)

/-- Model of `save_tokens(tokens)`: overwrite the token file with the serialised
record. -/
def save_tokens (tokens : Rec) (now : Int) : TokenFile :=
  .json (to_serializable tokens now)

/-- The `saved_at` repair step of `load_tokens`: if the loaded dict has a
`saved_at` key, parse it back to a datetime; if parsing raises, fall back
to `now - timedelta(days=1)`. -/
def fixSavedAt (r : Rec) (now : Int) : Rec :=
  match r.getVal "saved_at" with
  | none => r
  | some (.jTime _) => r
  | some _ => r.setVal "saved_at" (.jTime (now - oneDay))

/-- Model of `load_tokens()`: `None` when the file does not exist; the parse error
propagates (no `try` around `json.load`) when the file is corrupt;
otherwise the dict with `saved_at` repaired. -/
def load_tokens (f : TokenFile) (now : Int) : Except String (Option Rec) :=
  match f with
  | .missing => .ok none
  | .corrupt => .error "json.load: invalid token file"
  | .json r => .ok (some (fixSavedAt r now))

/-! Association-list lookup lemmas -/

theorem getVal_setVal_self (r : Rec) (k : String) (v : JVal) :
    (r.setVal k v).getVal k = some v := by
  simp [Rec.setVal, Rec.getVal, List.lookup]

theorem lookup_filter_ne (r : Rec) (k k' : String) (h : k' ≠ k) :
    (r.filter (fun p => p.1 != k)).lookup k' = r.lookup k' := by
  induction r with
  | nil => rfl
  | cons p r ih =>
    obtain ⟨a, b⟩ := p
    by_cases hp : a = k
    · subst hp
      have hbeq : (k' == a) = false := by simp [beq_eq_false_iff_ne, h]
      simp [List.filter_cons, List.lookup_cons, hbeq, ih]
    · have hne : (a != k) = true := by simp [bne_iff_ne, hp]
      simp only [List.filter_cons, hne, if_true, List.lookup_cons]
      cases hx : k' == a <;> simp [hx, ih]

theorem getVal_setVal_ne (r : Rec) (k k' : String) (v : JVal) (h : k' ≠ k) :
    (r.setVal k v).getVal k' = r.getVal k' := by
  simp only [Rec.setVal, Rec.getVal, List.lookup_cons]
  have : (k' == k) = false := by simp [beq_eq_false_iff_ne, h]
  rw [this, lookup_filter_ne r k k' h]

theorem lookup_append_rec (l₁ l₂ : Rec) (k : String) :
    (l₁ ++ l₂).lookup k =
      match l₁.lookup k with
      | some v => some v
      | none => l₂.lookup k := by
  induction l₁ with
  | nil => simp
  | cons p l₁ ih =>
    obtain ⟨a, b⟩ := p
    simp only [List.cons_append, List.lookup_cons]
    cases hx : k == a <;> simp [hx, ih]

theorem lookup_filter_of_isSome (s n : Rec) (k : String) (h : (n.lookup k).isSome) :
    (s.filter (fun p => (n.lookup p.1).isNone)).lookup k = none := by
  induction s with
  | nil => rfl
  | cons p s ih =>
    obtain ⟨a, b⟩ := p
    by_cases hk : k = a
    · have hp : (n.lookup a).isNone = false := by
        rw [← hk]
        cases hx : n.lookup k with
        | none => rw [hx] at h; simp at h
        | some v => simp
      simp only [List.filter_cons, hp, Bool.false_eq_true, if_false]
      exact ih
    · have hbeq : (k == a) = false := by simp [beq_eq_false_iff_ne, hk]
      cases hp : (n.lookup a).isNone with
      | true =>
        simp only [List.filter_cons, hp, if_true, List.lookup_cons, hbeq]
        exact ih
      | false =>
        simp only [List.filter_cons, hp, Bool.false_eq_true, if_false]
        exact ih

theorem lookup_filter_of_isNone (s n : Rec) (k : String) (h : n.lookup k = none) :
    (s.filter (fun p => (n.lookup p.1).isNone)).lookup k = s.lookup k := by
  induction s with
  | nil => rfl
  | cons p s ih =>
    obtain ⟨a, b⟩ := p
    by_cases hk : k = a
    · have hbeq : (k == a) = true := by simp [hk]
      have hp : (n.lookup a).isNone = true := by rw [← hk, h]; rfl
      simp [List.filter_cons, hp, List.lookup_cons, hbeq]
    · have hbeq : (k == a) = false := by simp [beq_eq_false_iff_ne, hk]
      cases hp : (n.lookup a).isNone with
      | true =>
        simp only [List.filter_cons, hp, if_true, List.lookup_cons, hbeq]
        exact ih
      | false =>
        simp only [List.filter_cons, hp, Bool.false_eq_true, if_false, List.lookup_cons, hbeq]
        exact ih

theorem getVal_mergeRecs (s n : Rec) (k : String) :
    (mergeRecs s n).getVal k =
      match n.getVal k with
      | some v => some v
      | none => s.getVal k := by
  simp only [mergeRecs, Rec.getVal]
  rw [lookup_append_rec]
  cases h : n.lookup k with
  | some v =>
    rw [lookup_filter_of_isSome s n k (by rw [h]; rfl)]
  | none =>
    rw [lookup_filter_of_isNone s n k h]
    cases s.lookup k <;> rfl

/-! Session manager: `ensure_tokens_valid` -/

/-- The authenticated client handle built by `kite_client_with_token`. -/
structure KiteClient : Type where
  access_token : JVal
  deriving DecidableEq, Repr

/-- Model of `kite_client_with_token(access_token)`. -/
def kite_client_with_token (access_token : JVal) : KiteClient :=
  ⟨access_token⟩

/-- Oracles for the external brokerage SDK calls made by the session
manager: the probe (`kite.profile()` inside `is_access_token_valid`,
abstracted to its outcome) and the renewal endpoint
(`renew_access_token`); an `Except.error` is a raised exception. -/
structure KiteEnv : Type where
  probeOk : JVal → Bool
  renew : JVal → Except String Rec

/-- Model of `is_access_token_valid(access_token)`: run the probe; any exception
means `False`. -/
def is_access_token_valid (env : KiteEnv) (access_token : JVal) : Bool :=
  env.probeOk access_token

/-- The process state touched by the session manager: the token file and
the process-wide mutable `kite` handle (initially `None`). -/
structure BotState : Type where
  file : TokenFile
  kite : Option KiteClient
  deriving DecidableEq, Repr

/-- Outcome of one `ensure_tokens_valid()` call: the returned boolean, the
state after the call, and how many times the renewal endpoint
(`renew_access_token`) was invoked during the call. -/
structure EnsureResult : Type where
  ok : Bool
  state : BotState
  renewCount : Nat
  deriving DecidableEq, Repr

/-- The refresh branch of `ensure_tokens_valid` (lines 86-103 of the
source): give up if there is no truthy `refresh_token`; otherwise call the
renewal endpoint once inside `try`.  On success merge
`{**saved, **newdata}`, persist, and set the global `kite` from
`merged["access_token"]`; any exception in the `try` block (including the
`KeyError` when `merged` lacks `access_token`, which occurs after the
save) is caught and yields `False`. -/
def tryRefresh (env : KiteEnv) (now : Int) (st : BotState) (saved : Rec) : EnsureResult :=
  match saved.getVal "refresh_token" with
  | none => ⟨false, st, 0⟩
  | some rt =>
    if !truthyVal rt then ⟨false, st, 0⟩
    else
      match env.renew rt with
      | .error _ => ⟨false, st, 1⟩
      | .ok newdata =>
        let merged := mergeRecs saved newdata
        let st' : BotState := ⟨save_tokens merged now, st.kite⟩
        match merged.getVal "access_token" with
        | some a => ⟨true, ⟨st'.file, some (kite_client_with_token a)⟩, 1⟩
        | none => ⟨false, st', 1⟩

/-- Model of `ensure_tokens_valid()`: load the record (a corrupt file propagates
the `json.load` exception); `if not saved` covers both `None` and the
empty dict; probe a truthy `access_token` and on success set the global
`kite` from it; otherwise fall through to the refresh branch. -/
def ensure_tokens_valid (env : KiteEnv) (now : Int) (st : BotState) :
    Except String EnsureResult :=
  match load_tokens st.file now with
  | .error e => .error e
  | .ok none => .ok ⟨false, st, 0⟩
  | .ok (some saved) =>
    if saved.isEmpty then .ok ⟨false, st, 0⟩
    else
      match saved.getVal "access_token" with
      | some a =>
        if truthyVal a && is_access_token_valid env a then
          .ok ⟨true, ⟨st.file, some (kite_client_with_token a)⟩, 0⟩
        else
          .ok (tryRefresh env now st saved)
      | none => .ok (tryRefresh env now st saved)

/-! Flask `/callback` route -/

/-- Oracle for `generate_session(request_token, api_secret)`. -/
structure CallbackEnv : Type where
  generateSession : String → Except String Rec

/-- Result of one `/callback` request: the HTTP status code and the token
file afterwards. -/
structure CallbackResult : Type where
  status : Nat
  file : TokenFile
  deriving DecidableEq, Repr

/-- The `/callback` route: `request.args.get("request_token")` is `None`
or the parameter's string; `if not req_token` rejects `None` and the empty
string with a 400 before anything is written; otherwise exchange the code
and persist the session (200), or report the exception (500). -/
def callback (env : CallbackEnv) (reqToken : Option String) (st : TokenFile)
    (now : Int) : CallbackResult :=
  match reqToken with
  | none => ⟨400, st⟩
  | some t =>
    if t.isEmpty then ⟨400, st⟩
    else
      match env.generateSession t with
      | .ok session => ⟨200, save_tokens session now⟩
      | .error _ => ⟨500, st⟩

/-! Portfolio table: `_format_table_html` -/

/-- One holdings row as consumed by `_format_table_html`.  Prices are
modelled as rationals (the claims concern exact signs and sums; every
scenario value in the spec is exactly representable). -/
structure Holding : Type where
  tradingsymbol : String
  quantity : Int
  average_price : ℚ
  last_price : ℚ
  deriving DecidableEq, Repr

/-- The per-row profit/loss: `(float(ltp) - float(avg)) * float(qty)`. -/
def rowPnl (h : Holding) : ℚ :=
  (h.last_price - h.average_price) * (h.quantity : ℚ)

/-- The directional indicator attached to a profit/loss value:
`"🟢" if pnl >= 0 else "🔴"`. -/
def pnlEmoji (pnl : ℚ) : String :=
  if 0 ≤ pnl then "🟢" else "🔴"

/-- The running total `total_pnl`: starts at `0.0` and accumulates each
row's profit/loss in order. -/
def totalPnl (holdings : List Holding) : ℚ :=
  holdings.foldl (fun acc h => acc + rowPnl h) 0

/-! Auxiliary lemmas about the embedding -/

theorem isEmpty_false_of_getVal (r : Rec) (k : String) (v : JVal)
    (h : r.getVal k = some v) : r.isEmpty = false := by
  cases r with
  | nil => simp [Rec.getVal, List.lookup] at h
  | cons p l => rfl

theorem fixSavedAt_of_time (r : Rec) (now t : Int)
    (h : r.getVal "saved_at" = some (.jTime t)) : fixSavedAt r now = r := by
  simp [fixSavedAt, h]

/-! Claim theorems -/

/-- C1 (counterexample): on a token file that exists but does not parse,
`load_tokens` does **not** return the absent result: the `json.load`
exception propagates (there is no `try` around it), contradicting the
claim that corruption is treated as absence and `load()` never raises. -/
theorem load_tokens_corrupt_not_absent :
    load_tokens TokenFile.corrupt 0 ≠ Except.ok none := by
  simp [load_tokens]

/-- C1 (amended): `load_tokens` on a store that was never written (or
whose file was deleted) returns the absent result and never raises, but
on a file whose contents are not valid serialized data it raises the
parse error instead of treating corruption as absence. -/
theorem load_tokens_missing_absent_corrupt_raises (now : Int) :
    load_tokens TokenFile.missing now = Except.ok none ∧
    ∃ e, load_tokens TokenFile.corrupt now = Except.error e :=
  ⟨rfl, ⟨"json.load: invalid token file", rfl⟩⟩

/-- C4: a `save_tokens` followed by `load_tokens` round-trips: the loaded
record keeps the saved `access_token` and `refresh_token` and carries
`saved_at` equal to the time of the save, regardless of any `saved_at`
value in the record passed to `save_tokens`. -/
theorem save_load_roundtrip (r : Rec) (tSave tLoad : Int) :
    ∃ r', load_tokens (save_tokens r tSave) tLoad = Except.ok (some r') ∧
      r'.getVal "access_token" = r.getVal "access_token" ∧
      r'.getVal "refresh_token" = r.getVal "refresh_token" ∧
      r'.getVal "saved_at" = some (.jTime tSave) := by
  refine ⟨to_serializable r tSave, ?_, ?_, ?_, ?_⟩
  · have h1 : (to_serializable r tSave).getVal "saved_at" = some (.jTime tSave) :=
      getVal_setVal_self r "saved_at" (.jTime tSave)
    simp only [save_tokens, load_tokens, fixSavedAt_of_time _ tLoad tSave h1]
  · exact getVal_setVal_ne r "saved_at" "access_token" _ (by decide)
  · exact getVal_setVal_ne r "saved_at" "refresh_token" _ (by decide)
  · exact getVal_setVal_self r "saved_at" (.jTime tSave)

/-- C6: whenever `load_tokens` reports that no record exists,
`ensure_tokens_valid` returns `False` (not ready), leaving the state
untouched and never contacting the renewal endpoint. -/
theorem ensure_not_ready_of_absent (env : KiteEnv) (now : Int) (st : BotState)
    (h : load_tokens st.file now = Except.ok none) :
    ensure_tokens_valid env now st = Except.ok ⟨false, st, 0⟩ := by
  simp [ensure_tokens_valid, h]

/-- C6 witness. -/
theorem ensure_not_ready_of_absent_witness :
    ensure_tokens_valid ⟨fun _ => false, fun _ => Except.error "down"⟩ 0
        ⟨TokenFile.missing, none⟩ =
      Except.ok ⟨false, ⟨TokenFile.missing, none⟩, 0⟩ :=
  ensure_not_ready_of_absent _ 0 _ rfl

/-- C7: a `/callback` request with no `request_token` query parameter gets
the client-error status 400 and the token file is left exactly as it was:
no record is written. -/
theorem callback_missing_request_token (env : CallbackEnv) (st : TokenFile)
    (now : Int) :
    callback env none st now = ⟨400, st⟩ :=
  rfl

/-- C10: if the token file parses but its `saved_at` value is not a valid
timestamp, `load_tokens` does not return absent: it returns the record
with `saved_at` replaced by the fallback timestamp one day before the
current time, so the loaded record's `saved_at` is well-formed. -/
theorem load_tokens_repairs_bad_saved_at (r : Rec) (now : Int) (v : JVal)
    (hv : r.getVal "saved_at" = some v)
    (hbad : ∀ t, v ≠ JVal.jTime t) :
    load_tokens (.json r) now =
      Except.ok (some (r.setVal "saved_at" (.jTime (now - oneDay)))) ∧
    (r.setVal "saved_at" (.jTime (now - oneDay))).getVal "saved_at" =
      some (.jTime (now - oneDay)) := by
  constructor
  · simp only [load_tokens, fixSavedAt, hv]
  · exact getVal_setVal_self r "saved_at" (.jTime (now - oneDay))

/-- C10 witness. -/
theorem load_tokens_repairs_bad_saved_at_witness :
    load_tokens (.json [("saved_at", JVal.jStr "not-a-date")]) 100000 =
      Except.ok (some (Rec.setVal [("saved_at", JVal.jStr "not-a-date")] "saved_at"
        (.jTime (100000 - oneDay)))) ∧
    (Rec.setVal [("saved_at", JVal.jStr "not-a-date")] "saved_at"
        (.jTime (100000 - oneDay))).getVal "saved_at" =
      some (.jTime (100000 - oneDay)) :=
  load_tokens_repairs_bad_saved_at [("saved_at", JVal.jStr "not-a-date")] 100000
    (JVal.jStr "not-a-date") rfl (fun _ h => JVal.noConfusion h)

/-- C5: when the stored record has an `access_token` that passes the
probe, `ensure_tokens_valid` returns `True` with the global `kite` handle
built from that cached token, and the renewal endpoint is never invoked
(`renewCount = 0`); the token file is untouched. -/
theorem ensure_ready_of_probe_ok (env : KiteEnv) (now : Int) (st : BotState)
    (saved : Rec) (a : JVal)
    (hload : load_tokens st.file now = Except.ok (some saved))
    (ha : saved.getVal "access_token" = some a)
    (htruthy : truthyVal a = true)
    (hprobe : env.probeOk a = true) :
    ensure_tokens_valid env now st =
      Except.ok ⟨true, ⟨st.file, some (kite_client_with_token a)⟩, 0⟩ := by
  simp only [ensure_tokens_valid, hload, isEmpty_false_of_getVal saved _ _ ha, ha,
    is_access_token_valid, htruthy, hprobe, Bool.and_self, if_true, Bool.false_eq_true,
    if_false]

/-- C5 witness. -/
theorem ensure_ready_of_probe_ok_witness :
    ensure_tokens_valid ⟨fun _ => true, fun _ => Except.error "down"⟩ 7
        ⟨TokenFile.json [("access_token", JVal.jStr "tok")], none⟩ =
      Except.ok ⟨true, ⟨TokenFile.json [("access_token", JVal.jStr "tok")],
        some (kite_client_with_token (JVal.jStr "tok"))⟩, 0⟩ :=
  ensure_ready_of_probe_ok ⟨fun _ => true, fun _ => Except.error "down"⟩ 7
    ⟨TokenFile.json [("access_token", JVal.jStr "tok")], none⟩
    [("access_token", JVal.jStr "tok")] (JVal.jStr "tok") rfl rfl rfl rfl

/-- C2: when the stored record's access token fails the probe and a
(truthy) `refresh_token` is present, `ensure_tokens_valid` invokes the
renewal endpoint exactly once (`renewCount = 1`), and if that single
renewal attempt raises, it returns `False` — there is no second renewal
attempt and no retry loop. -/
theorem ensure_renews_exactly_once (env : KiteEnv) (now : Int) (st : BotState)
    (saved : Rec) (a rt : JVal)
    (hload : load_tokens st.file now = Except.ok (some saved))
    (ha : saved.getVal "access_token" = some a)
    (htruthy : truthyVal a = true)
    (hprobe : env.probeOk a = false)
    (hrt : saved.getVal "refresh_token" = some rt)
    (htr : truthyVal rt = true) :
    ∃ res, ensure_tokens_valid env now st = Except.ok res ∧
      res.renewCount = 1 ∧
      (∀ e, env.renew rt = Except.error e → res.ok = false) := by
  have hmain : ensure_tokens_valid env now st = Except.ok (tryRefresh env now st saved) := by
    simp only [ensure_tokens_valid, hload, isEmpty_false_of_getVal saved _ _ ha, ha,
      is_access_token_valid, htruthy, hprobe, Bool.and_false, Bool.false_eq_true, if_false]
  rw [hmain]
  unfold tryRefresh
  rw [hrt]
  dsimp only
  simp only [htr, Bool.not_true, Bool.false_eq_true, if_false]
  cases hre : env.renew rt with
  | error e => exact ⟨_, rfl, rfl, fun _ _ => rfl⟩
  | ok newdata =>
    cases hacc : (mergeRecs saved newdata).getVal "access_token" with
    | some a' =>
      refine ⟨_, rfl, ?_, ?_⟩
      · simp only [hacc]
      · intro e he
        exact absurd he (by simp)
    | none =>
      refine ⟨_, rfl, ?_, ?_⟩
      · simp only [hacc]
      · intro e he
        exact absurd he (by simp)

/-- C2 witness (a failing single renewal). -/
theorem ensure_renews_exactly_once_witness :
    ∃ res, ensure_tokens_valid ⟨fun _ => false, fun _ => Except.error "revoked"⟩ 3
        ⟨TokenFile.json [("access_token", JVal.jStr "tok"),
          ("refresh_token", JVal.jStr "ref")], none⟩ = Except.ok res ∧
      res.renewCount = 1 ∧
      (∀ e, (⟨fun _ => false, fun _ => Except.error "revoked"⟩ : KiteEnv).renew
          (JVal.jStr "ref") = Except.error e → res.ok = false) :=
  ensure_renews_exactly_once ⟨fun _ => false, fun _ => Except.error "revoked"⟩ 3
    ⟨TokenFile.json [("access_token", JVal.jStr "tok"),
      ("refresh_token", JVal.jStr "ref")], none⟩
    [("access_token", JVal.jStr "tok"), ("refresh_token", JVal.jStr "ref")]
    (JVal.jStr "tok") (JVal.jStr "ref") rfl rfl rfl rfl rfl rfl

/-- Helper for C9: when the refresh branch returns `False`, it leaves the
global `kite` handle exactly as it was. -/
theorem tryRefresh_kite_of_not_ok (env : KiteEnv) (now : Int) (st : BotState)
    (saved : Rec) :
    (tryRefresh env now st saved).ok = false →
    (tryRefresh env now st saved).state.kite = st.kite := by
  unfold tryRefresh
  split
  · intro _; rfl
  · split
    · intro _; rfl
    · split
      · intro _; rfl
      · dsimp only
        split
        · intro h; exact absurd h (by simp)
        · intro _; rfl

/-- C9: whenever `ensure_tokens_valid` returns `False` (not ready) — no
record, a token failing the probe with no usable refresh token, or a
failed renewal — the process-wide `kite` handle is left unchanged; it is
reassigned only on paths that return `True`. -/
theorem ensure_not_ready_kite_unchanged (env : KiteEnv) (now : Int)
    (st : BotState) (res : EnsureResult)
    (hres : ensure_tokens_valid env now st = Except.ok res)
    (hok : res.ok = false) :
    res.state.kite = st.kite := by
  unfold ensure_tokens_valid at hres
  split at hres
  · exact absurd hres (by simp)
  · simp only [Except.ok.injEq] at hres
    subst hres
    rfl
  · split at hres
    · simp only [Except.ok.injEq] at hres
      subst hres
      rfl
    · split at hres
      · split at hres
        · simp only [Except.ok.injEq] at hres
          subst hres
          exact absurd hok (by simp)
        · simp only [Except.ok.injEq] at hres
          subst hres
          exact tryRefresh_kite_of_not_ok env now st _ hok
      · simp only [Except.ok.injEq] at hres
        subst hres
        exact tryRefresh_kite_of_not_ok env now st _ hok

/-- C9 witness. -/
theorem ensure_not_ready_kite_unchanged_witness :
    (⟨false, ⟨TokenFile.missing, none⟩, 0⟩ : EnsureResult).state.kite =
      (⟨TokenFile.missing, none⟩ : BotState).kite :=
  ensure_not_ready_kite_unchanged ⟨fun _ => true, fun _ => Except.error "e"⟩ 0
    ⟨TokenFile.missing, none⟩ ⟨false, ⟨TokenFile.missing, none⟩, 0⟩ rfl rfl

/-- C3 scenario: the probe always fails and the renewal endpoint answers
with a record holding only a new `access_token` (no `saved_at`, no
`refresh_token`). -/
def renewEnvC3 : KiteEnv :=
  ⟨fun _ => false, fun _ => Except.ok [("access_token", JVal.jStr "newtok")]⟩

/-- C3 scenario: the saved record, last written at time 0. -/
def savedRecC3 : Rec :=
  [("access_token", JVal.jStr "oldtok"), ("refresh_token", JVal.jStr "ref"),
   ("saved_at", JVal.jTime 0)]

/-- C3 scenario: the process state holding that record. -/
def stateC3 : BotState := ⟨.json savedRecC3, none⟩

/-- The `saved_at` value of the record persisted by a session-manager
run (if the run succeeded and left a parsed record on disk). -/
def persistedSavedAt (x : Except String EnsureResult) : Option JVal :=
  match x with
  | .ok res =>
    match res.state.file with
    | .json p => p.getVal "saved_at"
    | _ => none
  | .error _ => none

/-- C3 (counterexample): `saved_at` is a key of the saved record that is
absent from the renewal response, yet the record persisted by the renewal
run at time 100 carries `saved_at = 100`, not the saved record's value
`0`: `save_tokens` stamps `saved_at`, so the persisted record is not the
plain key-wise merge the claim describes. -/
theorem ensure_merge_saved_at_cex :
    persistedSavedAt (ensure_tokens_valid renewEnvC3 100 stateC3) =
      some (JVal.jTime 100) ∧
    savedRecC3.getVal "saved_at" = some (JVal.jTime 0) ∧
    JVal.jTime 100 ≠ JVal.jTime 0 := by
  refine ⟨by decide, by decide, by decide⟩

/-- C3 (amended): on a successful renewal the persisted record is the
key-wise merge of the saved record and the renewal response — every key
present in the response takes the response's value and every other key
keeps the saved record's value, so in particular the old `refresh_token`
is kept when the response carries none — with the single exception of
`saved_at`, which `save_tokens` always stamps with the time of the save. -/
theorem ensure_renewal_persists_merge (env : KiteEnv) (now : Int)
    (st : BotState) (saved : Rec) (a rt : JVal) (newdata : Rec)
    (hload : load_tokens st.file now = Except.ok (some saved))
    (ha : saved.getVal "access_token" = some a)
    (htruthy : truthyVal a = true)
    (hprobe : env.probeOk a = false)
    (hrt : saved.getVal "refresh_token" = some rt)
    (htr : truthyVal rt = true)
    (hrenew : env.renew rt = Except.ok newdata) :
    ∃ res, ensure_tokens_valid env now st = Except.ok res ∧
      res.state.file = .json (to_serializable (mergeRecs saved newdata) now) ∧
      (∀ k, k ≠ "saved_at" →
        (to_serializable (mergeRecs saved newdata) now).getVal k =
          match newdata.getVal k with
          | some v => some v
          | none => saved.getVal k) ∧
      (to_serializable (mergeRecs saved newdata) now).getVal "saved_at" =
        some (JVal.jTime now) ∧
      (newdata.getVal "refresh_token" = none →
        (to_serializable (mergeRecs saved newdata) now).getVal "refresh_token" =
          some rt) := by
  have hkeys : ∀ k, k ≠ "saved_at" →
      (to_serializable (mergeRecs saved newdata) now).getVal k =
        match newdata.getVal k with
        | some v => some v
        | none => saved.getVal k := by
    intro k hk
    rw [to_serializable, getVal_setVal_ne _ _ _ _ hk, getVal_mergeRecs]
  have hstamp : (to_serializable (mergeRecs saved newdata) now).getVal "saved_at" =
      some (JVal.jTime now) :=
    getVal_setVal_self _ _ _
  have hrtkeep : newdata.getVal "refresh_token" = none →
      (to_serializable (mergeRecs saved newdata) now).getVal "refresh_token" =
        some rt := by
    intro hnone
    simp only [hkeys "refresh_token" (by decide), hnone]
    exact hrt
  have hmain : ensure_tokens_valid env now st =
      Except.ok (tryRefresh env now st saved) := by
    simp only [ensure_tokens_valid, hload, isEmpty_false_of_getVal saved _ _ ha, ha,
      is_access_token_valid, htruthy, hprobe, Bool.and_false, Bool.false_eq_true, if_false]
  rw [hmain]
  unfold tryRefresh
  rw [hrt]
  dsimp only
  simp only [htr, Bool.not_true, Bool.false_eq_true, if_false, hrenew]
  cases hacc : (mergeRecs saved newdata).getVal "access_token" with
  | some a' =>
    dsimp only
    exact ⟨_, rfl, rfl, hkeys, hstamp, hrtkeep⟩
  | none =>
    dsimp only
    exact ⟨_, rfl, rfl, hkeys, hstamp, hrtkeep⟩

/-- C3 witness (renewal response without a `refresh_token` field). -/
theorem ensure_renewal_persists_merge_witness :
    ∃ res, ensure_tokens_valid renewEnvC3 100 stateC3 = Except.ok res ∧
      res.state.file = .json (to_serializable
        (mergeRecs savedRecC3 [("access_token", JVal.jStr "newtok")]) 100) ∧
      (∀ k, k ≠ "saved_at" →
        (to_serializable (mergeRecs savedRecC3
            [("access_token", JVal.jStr "newtok")]) 100).getVal k =
          match Rec.getVal [("access_token", JVal.jStr "newtok")] k with
          | some v => some v
          | none => savedRecC3.getVal k) ∧
      (to_serializable (mergeRecs savedRecC3
          [("access_token", JVal.jStr "newtok")]) 100).getVal "saved_at" =
        some (JVal.jTime 100) ∧
      (Rec.getVal [("access_token", JVal.jStr "newtok")] "refresh_token" = none →
        (to_serializable (mergeRecs savedRecC3
            [("access_token", JVal.jStr "newtok")]) 100).getVal "refresh_token" =
          some (JVal.jStr "ref")) :=
  ensure_renewal_persists_merge renewEnvC3 100 stateC3 savedRecC3
    (JVal.jStr "oldtok") (JVal.jStr "ref") [("access_token", JVal.jStr "newtok")]
    rfl rfl rfl rfl rfl rfl rfl

/-- C8 (counterexample): a holdings row with quantity `0` and
`ltp < avg` (here avg 100, ltp 90) has profit/loss `0`, which is not
negative and is rendered with the "up" indicator `🟢`, refuting the
claim's unconditional "a row with `ltp < avg` is negative and carries the
down indicator". -/
theorem holdings_row_down_cex :
    (90 : ℚ) < 100 ∧
    rowPnl ⟨"XYZ", 0, 100, 90⟩ = 0 ∧
    ¬ rowPnl ⟨"XYZ", 0, 100, 90⟩ < 0 ∧
    pnlEmoji (rowPnl ⟨"XYZ", 0, 100, 90⟩) = "🟢" := by
  have h0 : rowPnl ⟨"XYZ", 0, 100, 90⟩ = 0 := by norm_num [rowPnl]
  refine ⟨by norm_num, h0, ?_, ?_⟩
  · rw [h0]
    norm_num
  · rw [h0]
    norm_num [pnlEmoji]

/-- C8 (amended): each row's profit/loss is `(ltp - avg) * qty`; for a
row with positive quantity, `ltp > avg` gives a positive profit/loss
carrying the "up" indicator and `ltp < avg` a negative one carrying the
"down" indicator; and the rendered total is the signed sum of all rows'
profit/loss values. -/
theorem holdings_pnl_spec (hs : List Holding) (h : Holding)
    (hq : 0 < h.quantity) :
    rowPnl h = (h.last_price - h.average_price) * (h.quantity : ℚ) ∧
    (h.average_price < h.last_price →
      0 < rowPnl h ∧ pnlEmoji (rowPnl h) = "🟢") ∧
    (h.last_price < h.average_price →
      rowPnl h < 0 ∧ pnlEmoji (rowPnl h) = "🔴") ∧
    totalPnl hs = (hs.map rowPnl).sum ∧
    rowPnl ⟨"ABC", 10, 100, 110⟩ = 100 ∧
    pnlEmoji (rowPnl ⟨"ABC", 10, 100, 110⟩) = "🟢" ∧
    totalPnl [⟨"ABC", 10, 100, 110⟩] = 100 := by
  have hq' : (0 : ℚ) < (h.quantity : ℚ) := by exact_mod_cast hq
  have habc : rowPnl ⟨"ABC", 10, 100, 110⟩ = 100 := by norm_num [rowPnl]
  refine ⟨rfl, ?_, ?_, ?_, habc, ?_, ?_⟩
  · intro hlt
    have hpos : 0 < rowPnl h := by
      simp only [rowPnl]
      have hd : 0 < h.last_price - h.average_price := by linarith
      exact mul_pos hd hq'
    exact ⟨hpos, by simp [pnlEmoji, hpos.le]⟩
  · intro hlt
    have hneg : rowPnl h < 0 := by
      simp only [rowPnl]
      have hd : h.last_price - h.average_price < 0 := by linarith
      exact mul_neg_of_neg_of_pos hd hq'
    exact ⟨hneg, by simp [pnlEmoji, not_le.mpr hneg]⟩
  · rw [totalPnl, List.sum_eq_foldl, List.foldl_map]
  · rw [habc]
    norm_num [pnlEmoji]
  · rw [totalPnl]
    simp only [List.foldl_cons, List.foldl_nil, habc]
    norm_num

/-- C8 witness (the spec's scenario row: qty 10, avg 100, ltp 110 gives
profit/loss exactly 100 with the "up" indicator, and the single-row total
is 100). -/
theorem holdings_pnl_spec_witness :
    (0 : Int) < 10 ∧
    (rowPnl ⟨"ABC", 10, 100, 110⟩ =
        ((⟨"ABC", 10, 100, 110⟩ : Holding).last_price -
          (⟨"ABC", 10, 100, 110⟩ : Holding).average_price) *
          ((⟨"ABC", 10, 100, 110⟩ : Holding).quantity : ℚ) ∧
      ((⟨"ABC", 10, 100, 110⟩ : Holding).average_price <
          (⟨"ABC", 10, 100, 110⟩ : Holding).last_price →
        0 < rowPnl ⟨"ABC", 10, 100, 110⟩ ∧
        pnlEmoji (rowPnl ⟨"ABC", 10, 100, 110⟩) = "🟢") ∧
      ((⟨"ABC", 10, 100, 110⟩ : Holding).last_price <
          (⟨"ABC", 10, 100, 110⟩ : Holding).average_price →
        rowPnl ⟨"ABC", 10, 100, 110⟩ < 0 ∧
        pnlEmoji (rowPnl ⟨"ABC", 10, 100, 110⟩) = "🔴") ∧
      totalPnl [⟨"ABC", 10, 100, 110⟩] =
        ([⟨"ABC", 10, 100, 110⟩].map rowPnl).sum ∧
      rowPnl ⟨"ABC", 10, 100, 110⟩ = 100 ∧
      pnlEmoji (rowPnl ⟨"ABC", 10, 100, 110⟩) = "🟢" ∧
      totalPnl [⟨"ABC", 10, 100, 110⟩] = 100) :=
  ⟨by decide,
   holdings_pnl_spec [⟨"ABC", 10, 100, 110⟩] ⟨"ABC", 10, 100, 110⟩ (by decide)⟩
